import Mathlib

/-!
Verification of the gpx-visualize repository: a shallow embedding, in Lean, of
the ride-filter predicate, the viewport synchronisation engine, the coordinate
sanitizer, the adaptive tolerance calculator, the safe simplifier, the tier
generator, the bounding-box fallback scan, the batch ingestion loop and the
rides API query, together with theorems settling the spec's claims about them.

JavaScript numbers are modelled as exact rationals (`ℚ`); where the code can
see NaN / Infinity / undefined / null the embedding makes those values explicit
(`Option`, or the `JVal` type below).  Strings keep their JS contents.
-/

namespace GpxVisualize

/-! ## Data model (src/types.ts, src/filterTypes.ts) -/

/-- BoundingBox from src/types.ts: `{minLon, minLat, maxLon, maxLat}`. -/
structure BoundingBox where
  minLon : ℚ
  minLat : ℚ
  maxLon : ℚ
  maxLat : ℚ
deriving DecidableEq, Repr

/-- RideMeta from src/types.ts.  Only the fields the claims touch are kept:
the optional metadata fields are `Option`-valued exactly as they are optional
(`?`) in the TypeScript interface.  `startDate` is modelled as the epoch value
of the parsed date (the code compares `Date` objects, which compares their
epoch numbers). -/
structure RideMeta where
  id : String
  bbox : BoundingBox
  startDate : Option ℚ
  distanceKm : Option ℚ
  durationSec : Option ℚ
  elevationGainM : Option ℚ
  tags : Option (List String)
deriving DecidableEq, Repr

/-- RideFilter from src/filterTypes.ts: every field optional, absence means
unconstrained.  Date bounds are modelled as parsed epoch values, like
`startDate` above. -/
structure RideFilter where
  startDateFrom : Option ℚ
  startDateTo : Option ℚ
  minDistanceKm : Option ℚ
  maxDistanceKm : Option ℚ
  minDurationSec : Option ℚ
  maxDurationSec : Option ℚ
  minElevationGainM : Option ℚ
  requiredTags : Option (List String)
deriving DecidableEq, Repr

/-- The empty filter (`{}` in src/index.ts: start with no filter). -/
def emptyFilter : RideFilter := ⟨none, none, none, none, none, none, none, none⟩

/-! ## Filter predicate (src/filterUtil.ts, `rideMatchesFilter`) -/

/-- One minimum-bound check of src/filterUtil.ts, e.g.
`if (filter.minDistanceKm !== undefined && (ride.distanceKm ?? Infinity) < filter.minDistanceKm) return false;`.
When the attribute is absent the code compares `Infinity < bound`, which is
false for every (finite) bound, so the check never rejects a missing value. -/
def minCheck (attr bound : Option ℚ) : Bool :=
  match bound, attr with
  | none, _ => true
  | some _, none => true
  | some m, some v => !(v < m)

/-- One maximum-bound check of src/filterUtil.ts, e.g.
`if (filter.maxDistanceKm !== undefined && (ride.distanceKm ?? -Infinity) > filter.maxDistanceKm) return false;`.
When the attribute is absent the code compares `-Infinity > bound`, which is
false for every (finite) bound, so the check never rejects a missing value. -/
def maxCheck (attr bound : Option ℚ) : Bool :=
  match bound, attr with
  | none, _ => true
  | some _, none => true
  | some m, some v => !(v > m)

/-- The start-date-from check: `if (filter.startDateFrom) { ... if (!rideDate || rideDate < from) return false; }`.
A ride without a start date fails an active lower date bound. -/
def dateFromCheck (rideDate bound : Option ℚ) : Bool :=
  match bound, rideDate with
  | none, _ => true
  | some _, none => false
  | some f, some d => !(d < f)

/-- The start-date-to check: `if (filter.startDateTo) { ... if (!rideDate || rideDate > to) return false; }`. -/
def dateToCheck (rideDate bound : Option ℚ) : Bool :=
  match bound, rideDate with
  | none, _ => true
  | some _, none => false
  | some t, some d => !(d > t)

/-- The tag clause: `if (filter.requiredTags && filter.requiredTags.length > 0) { if (!ride.tags) return false; const hasAll = filter.requiredTags.every(tag => ride.tags!.includes(tag)); if (!hasAll) return false; }`. -/
def tagsCheck (rideTags : Option (List String)) (required : Option (List String)) : Bool :=
  match required with
  | none => true
  | some req =>
    if req.length > 0 then
      match rideTags with
      | none => false
      | some tags => req.all (fun t => tags.contains t)
    else true

/-- `rideMatchesFilter` from src/filterUtil.ts: the conjunction, in source
order, of every active constraint's check (the source returns `false` at the
first failing check and `true` at the end). -/
def rideMatchesFilter (ride : RideMeta) (filt : RideFilter) : Bool :=
  dateFromCheck ride.startDate filt.startDateFrom &&
  dateToCheck ride.startDate filt.startDateTo &&
  minCheck ride.distanceKm filt.minDistanceKm &&
  maxCheck ride.distanceKm filt.maxDistanceKm &&
  minCheck ride.durationSec filt.minDurationSec &&
  maxCheck ride.durationSec filt.maxDurationSec &&
  minCheck ride.elevationGainM filt.minElevationGainM &&
  tagsCheck ride.tags filt.requiredTags

/-- A filter with all numeric (distance / duration / elevation) bounds
removed; used to state that those bounds are vacuous on rides missing the
corresponding attributes. -/
def stripNumericBounds (f : RideFilter) : RideFilter :=
  ⟨f.startDateFrom, f.startDateTo, none, none, none, none, none, f.requiredTags⟩

/-! ## Viewport sync engine (src/index.ts, filter-aware version)

The engine is the version of src/index.ts that imports `rideMatchesFilter`
(the one the claims cite).  Its map-widget calls are recorded as an explicit
operation trace; the widget's source registry (`map.getSource`) is the list of
currently registered source ids, which `addRide` / `removeRide` consult and
update.  Ride source ids in the code are `ride-${id}`; the prefix is constant,
so the embedding keys sources by the ride id itself. -/

/-- One operation issued against the map widget. -/
inductive MapOp where
  | add (id : String)
  | remove (id : String)
  | refresh (id : String)
deriving DecidableEq, Repr

/-- The ride id an operation applies to. -/
def MapOp.opId : MapOp → String
  | MapOp.add i => i
  | MapOp.remove i => i
  | MapOp.refresh i => i

/-- Modelled from the spec: `bboxIntersects` lives in src/dataLoader.ts, which
is not among the provided sources.  Spec 4.6 / 8: inclusive rectangle
intersection between two bounding boxes — touching edges count as
intersecting. -/
def bboxIntersectsSpec (a b : BoundingBox) : Bool :=
  !(a.maxLon < b.minLon || b.maxLon < a.minLon || a.maxLat < b.minLat || b.maxLat < a.minLat)

/-- `computeVisibleRides` from src/index.ts (filter-aware version).  The body
builds the viewport from `map.getBounds()` and then, for each ride, adds the
ride's id unconditionally: the `bboxIntersects(ride.bbox, viewport)` test is
commented out in the source ("todo: remove" debug bypass), so the viewport is
never consulted. -/
def computeVisibleRides (rides : List RideMeta) (viewport : BoundingBox) : List String :=
  rides.map RideMeta.id

/-- `addRide` from src/trackLayer.ts: returns the ops issued and the updated
source registry.  Guard: `if (map.getSource(sourceId)) return;`. -/
def addRideOps (sources : List String) (id : String) : List MapOp × List String :=
  if sources.contains id then ([], sources)
  else ([MapOp.add id], sources ++ [id])

/-- `removeRide` from src/trackLayer.ts: removes layer and source when
present. -/
def removeRideOps (sources : List String) (id : String) : List MapOp × List String :=
  if sources.contains id then ([MapOp.remove id], sources.erase id)
  else ([], sources)

/-- `refreshRideResolution` from src/trackLayer.ts: `if (!src) return;` then
`src.setData(newUrl)`; the source registry is unchanged. -/
def refreshRideOps (sources : List String) (id : String) : List MapOp :=
  if sources.contains id then [MapOp.refresh id] else []

/-- One iteration of the `for (const ride of state.rides)` loop in
`syncLayers` (src/index.ts).  `prevVisible` is `state.visible` (fixed for the
whole loop: it is replaced only after the loop); the accumulator carries the
operation trace and the map widget's evolving source registry. -/
def syncStep (prevVisible viewportVisible : List String) (filt : RideFilter)
    (acc : List MapOp × List String) (ride : RideMeta) : List MapOp × List String :=
  let shouldBeVisible := viewportVisible.contains ride.id && rideMatchesFilter ride filt
  let alreadyVisible := prevVisible.contains ride.id
  if shouldBeVisible && !alreadyVisible then
    let r := addRideOps acc.2 ride.id
    (acc.1 ++ r.1, r.2)
  else if !shouldBeVisible && alreadyVisible then
    let r := removeRideOps acc.2 ride.id
    (acc.1 ++ r.1, r.2)
  else if shouldBeVisible && alreadyVisible then
    (acc.1 ++ refreshRideOps acc.2 ride.id, acc.2)
  else acc

/-- `syncLayers` from src/index.ts (filter-aware version).  Returns the
operation trace, the final source registry, and the new `state.visible`
(the ids of rides in `viewportVisible` that match the filter, assigned after
the loop). -/
def syncLayers (rides : List RideMeta) (filt : RideFilter) (viewport : BoundingBox)
    (prevVisible sources : List String) : List MapOp × List String × List String :=
  let viewportVisible := computeVisibleRides rides viewport
  let looped := rides.foldl (syncStep prevVisible viewportVisible filt) ([], sources)
  let newVisible :=
    (rides.filter (fun r => viewportVisible.contains r.id && rideMatchesFilter r filt)).map
      RideMeta.id
  (looped.1, looped.2, newVisible)

/-! ## Coordinate sanitizer (preprocess script, `cleanCoordinates`) -/

/-- One raw input element of `cleanCoordinates`.  The constructors mirror the
shape detection of the source: an array of length ≥ 2 (`pair`), an object with
`x`/`y` fields (`obj`), or anything else (`junk`, skipped — this also covers
short arrays, whose `pt.x` is undefined and coerces to NaN).  The payloads
hold the result of the `Number(...)` coercion of the two fields, with `none`
standing for NaN (from undefined, missing or non-numeric values). -/
inductive RawPt where
  | pair (lon lat : Option ℚ)
  | obj (x y : Option ℚ)
  | junk
deriving DecidableEq, Repr

/-- The coordinates an element contributes, or `none` when the element is
skipped (`continue`): unusable shape, or NaN in either coordinate
(`if (Number.isNaN(lon) || Number.isNaN(lat)) continue;`). -/
def rawToCoord : RawPt → Option (ℚ × ℚ)
  | RawPt.pair (some lon) (some lat) => some (lon, lat)
  | RawPt.obj (some x) (some y) => some (x, y)
  | _ => none

/-- One iteration of the `for (const pt of raw)` loop of `cleanCoordinates`:
skip unusable elements, then skip an exact duplicate of the previous retained
element (`cleaned[cleaned.length - 1]`), else push. -/
def cleanStep (cleaned : List (ℚ × ℚ)) (pt : RawPt) : List (ℚ × ℚ) :=
  match rawToCoord pt with
  | none => cleaned
  | some c =>
    match cleaned.getLast? with
    | some last => if last = c then cleaned else cleaned ++ [c]
    | none => cleaned ++ [c]

/-- `cleanCoordinates` from the preprocess script (src/unnamed/part_000). -/
def cleanCoordinates (raw : List RawPt) : List (ℚ × ℚ) :=
  raw.foldl cleanStep []

/-! ## Adaptive tolerance calculator (`toleranceForResolution`) -/

/-- The `if (lon < minLon) minLon = lon;` update of the bounding-box scan,
with the accumulator starting at `Infinity` (modelled as `none`): any number
is less than Infinity. -/
def jsMinFold (acc : Option ℚ) (x : ℚ) : Option ℚ :=
  match acc with
  | none => some x
  | some m => if x < m then some x else some m

/-- The `if (lon > maxLon) maxLon = lon;` update, starting at `-Infinity`
(modelled as `none`). -/
def jsMaxFold (acc : Option ℚ) (x : ℚ) : Option ℚ :=
  match acc with
  | none => some x
  | some m => if x > m then some x else some m

/-- `toleranceForResolution` from the preprocess script.  `Math.cos` is the
real cosine (applied to `centerLat * Math.PI / 180`), so the result lives in
`ℝ`.  The `.getD 0` unwrapping of the scanned min/max is unreachable: the
empty-input case has already returned 0, and on a non-empty list the folds
produce `some`. -/
noncomputable def toleranceForResolution (coords : List (ℚ × ℚ)) (targetMeters : ℚ) : ℝ :=
  if coords.length = 0 then 0
  else
    let minLat := coords.foldl (fun a c => jsMinFold a c.2) none
    let maxLat := coords.foldl (fun a c => jsMaxFold a c.2) none
    let centerLat : ℚ := (minLat.getD 0 + maxLat.getD 0) / 2
    let metersPerDegreeLat : ℝ := 111132
    let metersPerDegreeLon : ℝ := 111320 * Real.cos ((centerLat : ℝ) * Real.pi / 180)
    let metersPerDegree := min metersPerDegreeLat metersPerDegreeLon
    let toleranceDeg := (targetMeters : ℝ) / metersPerDegree
    min toleranceDeg 0.01

/-! ## Safe simplifier (`safeSimplify`) -/

/-- `safeSimplify` from the preprocess script.  The polyline-simplification
algorithm is the external simplify-js library; the embedding takes it as a
function parameter (`simplifyAlg`).  The conversions between `[lon, lat]`
pairs and `{x, y}` points in the source are mutually inverse, so they vanish
here. -/
def safeSimplify (simplifyAlg : List (ℚ × ℚ) → ℝ → List (ℚ × ℚ))
    (coords : List (ℚ × ℚ)) (toleranceDeg : ℝ) : List (ℚ × ℚ) :=
  if coords.length ≤ 2 then coords
  else
    let result := simplifyAlg coords toleranceDeg
    if result.length > 2 then result else coords

/-! ## Tier generator (`generateResolutionFiles`) -/

/-- The three artifact references returned by `generateResolutionFiles`. -/
structure TierPaths where
  fullPath : String
  mediumPath : String
  coarsePath : String
deriving DecidableEq, Repr

/-- One element of the raw `track_points` array as the tier-generator
pipeline sees it: `none` models a null (or undefined) element, on which the
property access `pt.x` throws a TypeError; `some (x, y)` models an object
element carrying its two coerced coordinate values (`none` = coerces to
NaN). -/
abbrev TrackPoint : Type := Option (Option ℚ × Option ℚ)

/-- The element access `pt => [pt.x, pt.y]` of `extractCoordinates`: on a
null (or undefined) element the property access throws a TypeError. -/
def derefOrThrow : TrackPoint → Except Unit (Option ℚ × Option ℚ)
  | none => Except.error ()
  | some xy => Except.ok xy

/-- `extractCoordinates` from the preprocess script: `null` when
`trip.track_points` is not an array or is empty; otherwise it maps
`pt => [pt.x, pt.y]` over the array, which throws (`Except.error`) as soon as
it dereferences a null element. -/
def extractCoordinates (track_points : Option (List TrackPoint)) :
    Except Unit (Option (List (Option ℚ × Option ℚ))) :=
  match track_points with
  | none => Except.ok none
  | some pts =>
    if pts.length = 0 then Except.ok none
    else (List.mapM' derefOrThrow pts).map some

/-- `writeGeoJSON` from the preprocess script, modelled by its observable
effect: the file name written (`${rideId}_${suffix}.geojson`) together with
the coordinates serialized into it; the returned path is the file name. -/
def writeGeoJSON (rideId : String) (coords : List (ℚ × ℚ)) (suffix : String) :
    String × (String × List (ℚ × ℚ)) :=
  let fileName := rideId ++ "_" ++ suffix ++ ".geojson"
  (fileName, (fileName, coords))

/-- What the Coordinate Sanitizer's own shape detection makes of a raw track
point element: a null/undefined element fails `pt && typeof pt === "object"`
and is skipped (`junk`); an object element contributes its `x`/`y` values as
an array pair. -/
def derefPoint : TrackPoint → RawPt
  | none => RawPt.junk
  | some xy => RawPt.pair xy.1 xy.2

/-- The sanitized coordinate list of a trip: its raw points (empty when
absent) put through `cleanCoordinates`, whose shape detection skips
null/undefined elements and keeps the object elements' coordinate pairs.
This is the claim's notion of "usable points after cleaning". -/
def sanitizedOfTrip (track_points : Option (List TrackPoint)) : List (ℚ × ℚ) :=
  cleanCoordinates ((track_points.getD []).map derefPoint)

/-- `generateResolutionFiles` from the preprocess script: returns the three
tier paths and the list of geometry artifacts written, or the TypeError
propagated out of `extractCoordinates` when a null point element is
dereferenced.  Both empty-geometry guards (`!rawCoords` and
`cleaned.length === 0`) return empty-string placeholders before any file is
written. -/
noncomputable def generateResolutionFiles
    (simplifyAlg : List (ℚ × ℚ) → ℝ → List (ℚ × ℚ)) (rideId : String)
    (track_points : Option (List TrackPoint)) :
    Except Unit (TierPaths × List (String × List (ℚ × ℚ))) :=
  (extractCoordinates track_points).bind fun rawCoords =>
    match rawCoords with
    | none => Except.ok (⟨"", "", ""⟩, [])
    | some rawCoords =>
      let cleaned := cleanCoordinates (rawCoords.map (fun p => RawPt.pair p.1 p.2))
      if cleaned.length = 0 then Except.ok (⟨"", "", ""⟩, [])
      else
        let fullW := writeGeoJSON rideId cleaned "full"
        let tolMedium := toleranceForResolution cleaned 10
        let mediumCoords := safeSimplify simplifyAlg cleaned tolMedium
        let mediumW := writeGeoJSON rideId mediumCoords "medium"
        let tolCoarse := toleranceForResolution cleaned 100
        let coarseCoords := safeSimplify simplifyAlg cleaned tolCoarse
        let coarseW := writeGeoJSON rideId coarseCoords "coarse"
        Except.ok (⟨fullW.1, mediumW.1, coarseW.1⟩, [fullW.2, mediumW.2, coarseW.2])

/-! ## Bounding-box fallback scan (src/preprocess.ts, `computeBboxFromTrip`)

This function reads raw, unvalidated JSON values, so the embedding makes the
relevant JavaScript value universe explicit. -/

/-- A raw JavaScript value as seen by `computeBboxFromTrip`: a finite number,
NaN, plus or minus Infinity, undefined (also: a missing property), or null. -/
inductive JVal where
  | num (q : ℚ)
  | nan
  | inf
  | ninf
  | undef
  | jnull
deriving DecidableEq, Repr

/-- The numeric domain of JS relational comparison. -/
inductive JNum where
  | fin (q : ℚ)
  | pinf
  | minf
  | nan
deriving DecidableEq, Repr

/-- ToNumber coercion as applied by `<` / `>`: undefined coerces to NaN, null
coerces to 0. -/
def jsToNumber : JVal → JNum
  | JVal.num q => JNum.fin q
  | JVal.nan => JNum.nan
  | JVal.inf => JNum.pinf
  | JVal.ninf => JNum.minf
  | JVal.undef => JNum.nan
  | JVal.jnull => JNum.fin 0

/-- The less-than relation on coerced values: any comparison with NaN is
false. -/
def jnumLt : JNum → JNum → Bool
  | JNum.nan, _ => false
  | _, JNum.nan => false
  | JNum.fin a, JNum.fin b => a < b
  | JNum.fin _, JNum.pinf => true
  | JNum.fin _, JNum.minf => false
  | JNum.pinf, _ => false
  | JNum.minf, JNum.minf => false
  | JNum.minf, _ => true

/-- JavaScript `a < b`. -/
def jsLt (a b : JVal) : Bool := jnumLt (jsToNumber a) (jsToNumber b)

/-- JavaScript `a > b` (the mirrored comparison). -/
def jsGt (a b : JVal) : Bool := jnumLt (jsToNumber b) (jsToNumber a)

/-- JavaScript `typeof v === "number"`: true for finite numbers and also for
NaN and plus or minus Infinity. -/
def isNumberType : JVal → Bool
  | JVal.num _ => true
  | JVal.nan => true
  | JVal.inf => true
  | JVal.ninf => true
  | JVal.undef => false
  | JVal.jnull => false

/-- One element of `trip.track_points`: `none` models a null (or undefined)
element, on which the property accesses `pt.x` / `pt.y` throw a TypeError;
`some (x, y)` models an object element with those two field values (`undef`
when the field is missing). -/
abbrev JPoint : Type := Option (JVal × JVal)

/-- The running `minLng / minLat / maxLng / maxLat` variables of the fallback
scan.  They are plain JS variables, so they hold raw `JVal`s: an assignment
`minLng = lng` can store Infinity or null verbatim. -/
structure ScanAcc where
  minLng : JVal
  minLat : JVal
  maxLng : JVal
  maxLat : JVal
deriving DecidableEq, Repr

/-- One iteration of the fallback scan over an object element:
`if (lng < minLng) minLng = lng;` and the three analogous updates. -/
def scanStep (acc : ScanAcc) (p : JVal × JVal) : ScanAcc :=
  let lng := p.1
  let lat := p.2
  ⟨if jsLt lng acc.minLng then lng else acc.minLng,
   if jsLt lat acc.minLat then lat else acc.minLat,
   if jsGt lng acc.maxLng then lng else acc.maxLng,
   if jsGt lat acc.maxLat then lat else acc.maxLat⟩

/-- The trip fields `computeBboxFromTrip` reads.  `track_points = none`
models an absent or non-array value (`Array.isArray` fails). -/
structure Trip where
  sw_lng : JVal
  sw_lat : JVal
  ne_lng : JVal
  ne_lat : JVal
  track_points : Option (List JPoint)

/-- The value `computeBboxFromTrip` formats into its result string: the four
explicit corners, the four scanned extrema, or the empty-string fallback. -/
inductive BboxResult where
  | corners (sw_lng sw_lat ne_lng ne_lat : JVal)
  | scanned (minLng minLat maxLng maxLat : JVal)
  | empty
deriving DecidableEq, Repr

/-- `computeBboxFromTrip` from src/preprocess.ts.  The fallback loop throws a
TypeError (modelled as `Except.error`) when it dereferences a null point
element; otherwise it folds `scanStep` from the Infinity-initialised
accumulator. -/
def computeBboxFromTrip (trip : Trip) : Except Unit BboxResult :=
  if isNumberType trip.sw_lng && isNumberType trip.sw_lat &&
      isNumberType trip.ne_lng && isNumberType trip.ne_lat then
    Except.ok (BboxResult.corners trip.sw_lng trip.sw_lat trip.ne_lng trip.ne_lat)
  else
    match trip.track_points with
    | some pts =>
      if pts.length > 0 then
        (pts.foldlM
            (fun acc (p : JPoint) =>
              match p with
              | none => Except.error ()
              | some xy => Except.ok (scanStep acc xy))
            ⟨JVal.inf, JVal.inf, JVal.ninf, JVal.ninf⟩).map
          (fun (acc : ScanAcc) =>
            BboxResult.scanned acc.minLng acc.minLat acc.maxLng acc.maxLat)
      else Except.ok BboxResult.empty
    | none => Except.ok BboxResult.empty

/-- Follows the spec's words for the fallback (spec 4.4: the fallback
"must tolerate non-finite or missing points without crashing (skip them)" and
returns the min/max bbox of the remaining points): points that are not
objects, or either of whose coordinate values is not a finite number, are
skipped; the bbox is the min/max over the points that remain.  Defined only to
be compared with `computeBboxFromTrip`. -/
def computeBboxFromTripSpec (trip : Trip) : BboxResult :=
  if isNumberType trip.sw_lng && isNumberType trip.sw_lat &&
      isNumberType trip.ne_lng && isNumberType trip.ne_lat then
    BboxResult.corners trip.sw_lng trip.sw_lat trip.ne_lng trip.ne_lat
  else
    match trip.track_points with
    | some pts =>
      if pts.length > 0 then
        let finite := pts.filterMap (fun (p : JPoint) =>
          match p with
          | some (JVal.num a, JVal.num b) => some (a, b)
          | _ => none)
        match finite with
        | [] => BboxResult.empty
        | c :: cs =>
          BboxResult.scanned
            (JVal.num (cs.foldl (fun m p => min p.1 m) c.1))
            (JVal.num (cs.foldl (fun m p => min p.2 m) c.2))
            (JVal.num (cs.foldl (fun m p => max p.1 m) c.1))
            (JVal.num (cs.foldl (fun m p => max p.2 m) c.2))
      else BboxResult.empty
    | none => BboxResult.empty

/-! ## Batch ingestion loop (preprocess script, `main`)

The claims about the batch are about its control flow: the per-file work sits
inside a try block whose catch logs a per-item error and continues, a falsy
`parsed.trip` is warned about and skipped with `continue`, and the last-run
marker write and the store close come after the loop.  The per-file work is
modelled at the granularity of its throw points. -/

/-- The trip fields the per-file processing reads, at the granularity that
decides whether the try block throws. -/
structure TripData where
  id : String
  sw_lng : JVal
  sw_lat : JVal
  ne_lng : JVal
  ne_lat : JVal
  track_points : Option (List JPoint)
  departed_at : String
  distance : ℚ
  metrics : Option (ℚ × ℚ)
  tag_names : Option (List String)

/-- The body of the try block for one parsed trip, as an exception-or-result
computation:
1. `generateResolutionFiles` maps `pt => [pt.x, pt.y]` over a present,
   non-empty `track_points` array, throwing a TypeError on a null element;
2. the record assembly calls `computeBboxFromTrip(trip)` (which can itself
   throw, though step 1 already excluded null elements) and
   `trip.metrics.duration` / `trip.metrics.ele_gain`, throwing when `metrics`
   is absent;
3. `db.insertRideRow(record)` upserts the ride id. -/
def processTrip (t : TripData) : Except Unit String :=
  (match t.track_points with
    | some pts =>
      if pts.length = 0 then Except.ok ()
      else if pts.contains none then Except.error ()
      else Except.ok ()
    | none => Except.ok ()) >>= fun _ =>
  (computeBboxFromTrip ⟨t.sw_lng, t.sw_lat, t.ne_lng, t.ne_lat, t.track_points⟩) >>= fun _ =>
  (match t.metrics with
    | none => Except.error ()
    | some _ => Except.ok ()) >>= fun _ =>
  Except.ok t.id

/-- One file of the batch, by the outcome of reading and parsing it:
`readError` when `fs.readFile` or `JSON.parse` throws, otherwise the parsed
object's `trip` field (`none` when falsy). -/
inductive FileItem where
  | readError
  | parsed (trip : Option TripData)

/-- One iteration of the `for (const filePath of jsonFiles)` loop: the
accumulator is (ids upserted so far, per-item warnings logged so far).  Every
failure path logs and continues; only a fully successful item upserts. -/
def processFileStep (st : List String × Nat) (f : FileItem) : List String × Nat :=
  match f with
  | FileItem.readError => (st.1, st.2 + 1)
  | FileItem.parsed none => (st.1, st.2 + 1)
  | FileItem.parsed (some t) =>
    match processTrip t with
    | Except.error _ => (st.1, st.2 + 1)
    | Except.ok id => (st.1 ++ [id], st.2)

/-- What `main` leaves behind: upserted ids in input order, the per-item
warnings, and whether the post-loop steps (`db.setMeta("last_run_ts", ...)`
and `db.close()`) ran.  Failures of the external store itself propagate to
the caller (spec 7d) and are outside this model. -/
structure BatchResult where
  upserted : List String
  warned : Nat
  markerWritten : Bool
  storeClosed : Bool
deriving DecidableEq, Repr

/-- The batch loop of `main` in the preprocess script, followed by the marker
write and the store close. -/
def runBatch (files : List FileItem) : BatchResult :=
  let loop := files.foldl processFileStep ([], 0)
  ⟨loop.1, loop.2, true, true⟩

/-- The id a file contributes to the store, when its processing succeeds. -/
def fileUpsertId (f : FileItem) : Option String :=
  match f with
  | FileItem.readError => none
  | FileItem.parsed none => none
  | FileItem.parsed (some t) =>
    match processTrip t with
    | Except.error _ => none
    | Except.ok id => some id

/-! ## Rides API (src/server.ts, `GET /api/rides`)

The handler builds a WHERE clause from the query parameters, then runs
`SELECT ... FROM rides [WHERE ...] ORDER BY departed_at DESC LIMIT 455` and
reshapes each row.  The embedding evaluates that SQL over the list of stored
rows: filter, sort descending by `departed_at` (a TEXT column: string
comparison), truncate to 455, reshape. -/

/-- A row of the `rides` table (src/db.ts schema). -/
structure DbRow where
  id : String
  bbox : String
  path_full : String
  path_medium : String
  path_coarse : String
  departed_at : String
  distance_km : ℚ
  duration_min : ℤ
  elevation_gain_m : ℚ
  tags : String
deriving DecidableEq, Repr

/-- The query parameters of `GET /api/rides`.  In the source they are strings
tested for truthiness and coerced with `Number(...)`; a field is `some` here
when the parameter is present and truthy, carrying its coerced value. -/
structure RidesQuery where
  bbox : Option (ℚ × ℚ × ℚ × ℚ)
  departedAfter : Option String
  departedBefore : Option String
  minDistance : Option ℚ
  maxDistance : Option ℚ
  minDuration : Option ℚ
  maxDuration : Option ℚ
  minElevation : Option ℚ
  maxElevation : Option ℚ
  tags : Option (List String)
deriving DecidableEq, Repr

/-- The SQL `tags LIKE ?` test with parameter `%"tag"%`: the stored
JSON-encoded tag string contains the quoted tag as a substring. -/
def likeContainsQuoted (tagsJson tag : String) : Bool :=
  decide (List.IsInfix (String.toList ("\"" ++ tag ++ "\"")) tagsJson.toList)

/-- The WHERE clause built by `buildWhereClause`, evaluated on one row (all
present conditions are conjoined with AND).  The bbox condition is excluded
here: it references columns that do not exist (see `apiRides`). -/
def rowMatchesWhere (q : RidesQuery) (r : DbRow) : Bool :=
  (match q.departedAfter with
    | none => true
    | some d => decide (d ≤ r.departed_at)) &&
  (match q.departedBefore with
    | none => true
    | some d => decide (r.departed_at ≤ d)) &&
  (match q.minDistance with
    | none => true
    | some m => decide (m ≤ r.distance_km)) &&
  (match q.maxDistance with
    | none => true
    | some m => decide (r.distance_km ≤ m)) &&
  (match q.minDuration with
    | none => true
    | some m => decide (m ≤ (r.duration_min : ℚ))) &&
  (match q.maxDuration with
    | none => true
    | some m => decide ((r.duration_min : ℚ) ≤ m)) &&
  (match q.minElevation with
    | none => true
    | some m => decide (m ≤ r.elevation_gain_m)) &&
  (match q.maxElevation with
    | none => true
    | some m => decide (r.elevation_gain_m ≤ m)) &&
  (match q.tags with
    | none => true
    | some req => req.all (fun t => likeContainsQuoted r.tags t))

/-- One element of the JSON response: the row fields plus the three
resolution URLs derived from the id.  The handler JSON-parses the stored tag
string into an array; the string is kept as stored here. -/
structure ApiRide where
  id : String
  departed_at : String
  distance_km : ℚ
  duration_min : ℤ
  elevation_gain_m : ℚ
  tagsJson : String
  bbox : String
  urlFull : String
  urlMedium : String
  urlCoarse : String
deriving DecidableEq, Repr

/-- The `rows.map((r) => ({...}))` reshaping of the handler. -/
def toApiRide (r : DbRow) : ApiRide :=
  ⟨r.id, r.departed_at, r.distance_km, r.duration_min, r.elevation_gain_m, r.tags, r.bbox,
   "/processed/" ++ r.id ++ "_full.geojson",
   "/processed/" ++ r.id ++ "_medium.geojson",
   "/processed/" ++ r.id ++ "_coarse.geojson"⟩

/-- The descending `departed_at` comparison of `ORDER BY departed_at DESC`. -/
def departedDescLe (a b : DbRow) : Bool :=
  decide (b.departed_at ≤ a.departed_at)

/-- The `GET /api/rides` handler.  When the `bbox` parameter is present the
built WHERE clause references `bbox_max_lng` / `bbox_min_lng` / `bbox_max_lat`
/ `bbox_min_lat`, columns that do not exist in the `rides` table, so
preparing the statement throws (`Except.error`); otherwise the query filters,
orders by `departed_at` descending, truncates to 455 rows (`LIMIT 455`) and
reshapes them. -/
def apiRides (rows : List DbRow) (q : RidesQuery) : Except Unit (List ApiRide) :=
  match q.bbox with
  | some _ => Except.error ()
  | none =>
    let matching := rows.filter (rowMatchesWhere q)
    let sorted := matching.mergeSort departedDescLe
    Except.ok ((sorted.take 455).map toApiRide)

/-! ## Concrete instances used by the end-to-end evaluations -/

/-- The viewport of the spec's end-to-end scenario. -/
def viewport0 : BoundingBox := ⟨0, 0, 10, 10⟩

/-- Scenario ride A: bbox overlaps the viewport, tags `["training"]`. -/
def rideA : RideMeta := ⟨"A", ⟨1, 1, 2, 2⟩, none, none, none, none, some ["training"]⟩

/-- Scenario ride B: bbox overlaps the viewport, tags `[]`. -/
def rideB : RideMeta := ⟨"B", ⟨3, 3, 4, 4⟩, none, none, none, none, some []⟩

/-- Scenario ride C: bbox disjoint from the viewport; tagged `["training"]`
so that only the viewport test can exclude it. -/
def rideC : RideMeta := ⟨"C", ⟨20, 20, 30, 30⟩, none, none, none, none, some ["training"]⟩

/-- The scenario filter `requiredTags = ["training"]`. -/
def trainingFilter : RideFilter := ⟨none, none, none, none, none, none, none, some ["training"]⟩

/-- A ride carrying none of the optional numeric attributes. -/
def rideNoNums : RideMeta := ⟨"r", ⟨0, 0, 0, 0⟩, none, none, none, none, none⟩

/-- A filter with every numeric bound active. -/
def allNumericBoundsFilter : RideFilter :=
  ⟨none, none, some 5, some 80, some 600, some 7200, some 100, none⟩

/-- Counterexample trip for the bbox fallback: no corner fields, one finite
point and one point whose longitude is Infinity. -/
def tripInf : Trip :=
  ⟨JVal.undef, JVal.undef, JVal.undef, JVal.undef,
    some [some (JVal.num 0, JVal.num 0), some (JVal.inf, JVal.num 1)]⟩

/-- Counterexample trip for the bbox fallback: no corner fields, one finite
point and one null point element. -/
def tripNull : Trip :=
  ⟨JVal.undef, JVal.undef, JVal.undef, JVal.undef,
    some [some (JVal.num 0, JVal.num 0), none]⟩

/-- A trip file whose processing succeeds end to end. -/
def tripFileOk : TripData :=
  ⟨"42", JVal.num 1, JVal.num 1, JVal.num 2, JVal.num 2, none, "2024-01-01T08:00:00Z",
    10000, some (3600, 120), some ["training"]⟩

/-- A second processable trip file. -/
def tripFileOk2 : TripData :=
  ⟨"43", JVal.num 1, JVal.num 1, JVal.num 2, JVal.num 2, none, "2024-02-01T08:00:00Z",
    20000, some (7200, 240), none⟩

/-- One stored ride row. -/
def dbRow1 : DbRow :=
  ⟨"1", "24.9,60.1,25.1,60.3", "processed/1_full.geojson", "processed/1_medium.geojson",
    "processed/1_coarse.geojson", "2024-01-01T08:00:00Z", 42, 120, 300, "[\"training\"]"⟩

/-- The query with no parameters. -/
def emptyRidesQuery : RidesQuery :=
  ⟨none, none, none, none, none, none, none, none, none, none⟩

/-! ## Theorems -/

/-- A missing attribute passes every minimum-bound check. -/
lemma minCheck_none (b : Option ℚ) : minCheck none b = true := by
  cases b <;> rfl

/-- A missing attribute passes every maximum-bound check. -/
lemma maxCheck_none (b : Option ℚ) : maxCheck none b = true := by
  cases b <;> rfl

/-- C1: the claim says a ride whose bbox is disjoint from the viewport is
never rendered, and the spec's scenario expects the rendered set `{A}`.  The
code contradicts this: `computeVisibleRides` has its `bboxIntersects` test
commented out (a "todo: remove" debug bypass), so ride C — bbox disjoint from
the viewport, filter-matching — is added to the map and ends up in the
rendered set: the pass yields adds for A and C, sources `["A", "C"]` and
`state.visible = ["A", "C"]`. -/
theorem c1_disjoint_ride_rendered_eval :
    bboxIntersectsSpec rideC.bbox viewport0 = false ∧
    rideMatchesFilter rideC trainingFilter = true ∧
    syncLayers [rideA, rideB, rideC] trainingFilter viewport0 [] [] =
      ([MapOp.add "A", MapOp.add "C"], ["A", "C"], ["A", "C"]) := by
  refine ⟨by decide, by decide, by decide⟩

/-- C2 counterexample: the claim says an active numeric constraint with the
corresponding attribute missing makes `rideMatchesFilter` return false, for
each of the five bounded numeric fields.  It returns true in all five cases:
the missing attribute is compared as `Infinity` against a minimum (never
less) and as `-Infinity` against a maximum (never greater), so the check
never fires. -/
theorem c2_missing_numeric_counterexample :
    rideMatchesFilter rideNoNums ⟨none, none, some 5, none, none, none, none, none⟩ = true ∧
    rideMatchesFilter rideNoNums ⟨none, none, none, some 80, none, none, none, none⟩ = true ∧
    rideMatchesFilter rideNoNums ⟨none, none, none, none, some 600, none, none, none⟩ = true ∧
    rideMatchesFilter rideNoNums ⟨none, none, none, none, none, some 7200, none, none⟩ = true ∧
    rideMatchesFilter rideNoNums ⟨none, none, none, none, none, none, some 100, none⟩ = true := by
  decide

/-- C2 (amended): for every RideMeta and RideFilter, when the ride lacks the
numeric attributes, the five numeric bounds impose no constraint at all —
missing numeric data is a wildcard for these bounded fields (the sentinel
`+Infinity` for min-checks and `-Infinity` for max-checks always passes), so
the filter behaves exactly like the same filter with all numeric bounds
removed.  (Only a missing start date under an active date constraint is
non-matching.) -/
theorem c2_missing_numeric_is_wildcard (ride : RideMeta) (filt : RideFilter)
    (hd : ride.distanceKm = none) (hu : ride.durationSec = none)
    (he : ride.elevationGainM = none) :
    rideMatchesFilter ride filt = rideMatchesFilter ride (stripNumericBounds filt) := by
  simp [rideMatchesFilter, stripNumericBounds, hd, hu, he, minCheck_none, maxCheck_none]

/-- Witness for C2's amended theorem at a concrete ride and filter. -/
theorem c2_missing_numeric_is_wildcard_witness :
    rideNoNums.distanceKm = none ∧ rideNoNums.durationSec = none ∧
    rideNoNums.elevationGainM = none ∧
    rideMatchesFilter rideNoNums allNumericBoundsFilter =
      rideMatchesFilter rideNoNums (stripNumericBounds allNumericBoundsFilter) :=
  ⟨rfl, rfl, rfl, c2_missing_numeric_is_wildcard rideNoNums allNumericBoundsFilter rfl rfl rfl⟩

/-- C3: the safe simplifier's collapse guard: input of at most 2 points is
returned unchanged, and whenever the simplification algorithm's output has at
most 2 points the pre-simplification input to this call is returned instead,
whatever the algorithm does. -/
theorem c3_safeSimplify_guard (simplifyAlg : List (ℚ × ℚ) → ℝ → List (ℚ × ℚ))
    (coords : List (ℚ × ℚ)) (toleranceDeg : ℝ) :
    (coords.length ≤ 2 → safeSimplify simplifyAlg coords toleranceDeg = coords) ∧
    ((simplifyAlg coords toleranceDeg).length ≤ 2 →
      safeSimplify simplifyAlg coords toleranceDeg = coords) := by
  constructor
  · intro h
    simp [safeSimplify, h]
  · intro h
    have h2 : ¬ (simplifyAlg coords toleranceDeg).length > 2 := by omega
    unfold safeSimplify
    split
    · rfl
    · simp [h2]

/-- Witness for C3 at a concrete 4-point list and an algorithm collapsing it
to the empty list: the guard hands back the original list. -/
theorem c3_safeSimplify_guard_witness :
    ((fun (_ : List (ℚ × ℚ)) (_ : ℝ) => ([] : List (ℚ × ℚ)))
        [(0, 0), (1, 1), (2, 2), (3, 3)] 1).length ≤ 2 ∧
    safeSimplify (fun _ _ => []) [(0, 0), (1, 1), (2, 2), (3, 3)] 1 =
      [(0, 0), (1, 1), (2, 2), (3, 3)] :=
  ⟨by simp, (c3_safeSimplify_guard (fun _ _ => []) [(0, 0), (1, 1), (2, 2), (3, 3)] 1).2
    (by simp)⟩

/-- One sanitizer step sends a list with no consecutive duplicates to a list
with no consecutive duplicates. -/
lemma chain_ne_cleanStep (acc : List (ℚ × ℚ)) (p : RawPt)
    (h : List.Chain' (· ≠ ·) acc) : List.Chain' (· ≠ ·) (cleanStep acc p) := by
  unfold cleanStep
  cases hr : rawToCoord p with
  | none => exact h
  | some c =>
    cases hl : acc.getLast? with
    | none =>
      have hnil : acc = [] := List.getLast?_eq_none_iff.mp hl
      subst hnil
      simp
    | some last =>
      by_cases he : last = c
      · simpa [he] using h
      · simp only [he, if_false]
        rw [List.chain'_append]
        refine ⟨h, List.chain'_singleton c, ?_⟩
        intro x hx y hy
        rw [hl] at hx
        simp at hx hy
        subst hx
        subst hy
        exact he

/-- The sanitizer fold appends to its accumulator a sublist of the usable
coordinates of the remaining input. -/
lemma cleanCoordinates_foldl_append_sublist :
    ∀ (raw : List RawPt) (acc : List (ℚ × ℚ)),
      ∃ t, raw.foldl cleanStep acc = acc ++ t ∧ List.Sublist t (raw.filterMap rawToCoord) := by
  intro raw
  induction raw with
  | nil => exact fun acc => ⟨[], by simp, by simp⟩
  | cons p raw ih =>
    intro acc
    rw [List.foldl_cons]
    by_cases hstep : cleanStep acc p = acc
    · obtain ⟨t, ht, hs⟩ := ih acc
      rw [hstep]
      refine ⟨t, ht, hs.trans ?_⟩
      cases hr : rawToCoord p <;> simp [List.filterMap_cons, hr, List.Sublist.cons]
    · -- the step retained the point: `cleanStep acc p = acc ++ [c]`
      cases hr : rawToCoord p with
      | none => exact absurd (by simp [cleanStep, hr]) hstep
      | some c =>
        have hpush : cleanStep acc p = acc ++ [c] := by
          unfold cleanStep
          rw [hr]
          cases hl : acc.getLast? with
          | none => rfl
          | some last =>
            by_cases he : last = c
            · exact absurd (by simp [cleanStep, hr, hl, he]) hstep
            · simp [he]
        obtain ⟨t, ht, hs⟩ := ih (acc ++ [c])
        rw [hpush, ht]
        exact ⟨c :: t, by simp, by simpa [List.filterMap_cons, hr] using hs.cons₂ c⟩

/-- C4: the sanitizer never keeps two equal consecutive coordinates, its
output is a sublist (hence: order-preserving selection) of the usable
coordinates of its input, its length never exceeds the input length, the
spec's example holds, and a coordinate reappearing after intervening points
is retained. -/
theorem c4_cleanCoordinates_sanitizer :
    (∀ raw : List RawPt, List.Chain' (· ≠ ·) (cleanCoordinates raw)) ∧
    (∀ raw : List RawPt, List.Sublist (cleanCoordinates raw) (raw.filterMap rawToCoord)) ∧
    (∀ raw : List RawPt, (cleanCoordinates raw).length ≤ raw.length) ∧
    cleanCoordinates [RawPt.pair (some 0) (some 0), RawPt.pair (some 0) (some 0),
        RawPt.pair (some 1) (some 1), RawPt.pair (some 2) (some 2),
        RawPt.pair (some 2) (some 2)] = [(0, 0), (1, 1), (2, 2)] ∧
    cleanCoordinates [RawPt.pair (some 0) (some 0), RawPt.pair (some 1) (some 1),
        RawPt.pair (some 0) (some 0)] = [(0, 0), (1, 1), (0, 0)] := by
  have hsub : ∀ raw : List RawPt, List.Sublist (cleanCoordinates raw) (raw.filterMap rawToCoord) := by
    intro raw
    obtain ⟨t, ht, hs⟩ := cleanCoordinates_foldl_append_sublist raw []
    simpa [cleanCoordinates, ht] using hs
  refine ⟨?_, hsub, ?_, by decide, by decide⟩
  · intro raw
    unfold cleanCoordinates
    generalize hacc : ([] : List (ℚ × ℚ)) = acc
    have hchain : List.Chain' (· ≠ ·) acc := by simp [← hacc]
    clear hacc
    induction raw generalizing acc with
    | nil => exact hchain
    | cons p raw ih => exact ih (cleanStep acc p) (chain_ne_cleanStep acc p hchain)
  · intro raw
    calc (cleanCoordinates raw).length ≤ (raw.filterMap rawToCoord).length :=
          (hsub raw).length_le
      _ ≤ raw.length := List.length_filterMap_le rawToCoord raw

/-- The latitude-minimum scan over an all-zero-latitude list stays at 0. -/
lemma foldl_jsMinFold_allzero :
    ∀ (l : List (ℚ × ℚ)), (∀ c ∈ l, c.2 = 0) →
      l.foldl (fun a c => jsMinFold a c.2) (some 0) = some 0 := by
  intro l
  induction l with
  | nil => intro _; rfl
  | cons c l ih =>
    intro h
    have hc : c.2 = 0 := h c (List.mem_cons_self c l)
    have hstep : jsMinFold (some 0) c.2 = some 0 := by simp [jsMinFold, hc]
    rw [List.foldl_cons, hstep]
    exact ih (fun x hx => h x (List.mem_cons_of_mem c hx))

/-- The latitude-maximum scan over an all-zero-latitude list stays at 0. -/
lemma foldl_jsMaxFold_allzero :
    ∀ (l : List (ℚ × ℚ)), (∀ c ∈ l, c.2 = 0) →
      l.foldl (fun a c => jsMaxFold a c.2) (some 0) = some 0 := by
  intro l
  induction l with
  | nil => intro _; rfl
  | cons c l ih =>
    intro h
    have hc : c.2 = 0 := h c (List.mem_cons_self c l)
    have hstep : jsMaxFold (some 0) c.2 = some 0 := by simp [jsMaxFold, hc]
    rw [List.foldl_cons, hstep]
    exact ih (fun x hx => h x (List.mem_cons_of_mem c hx))

/-- C5 counterexample: the claim says an equatorial track with
targetMeters = 10 yields tolerance 10/111320, "targetMeters divided by the
smaller of 111132 and 111320·cos(centerLat)".  At the equator the smaller
factor is 111132, not 111320, so the code returns 10/111132 (≈ 8.998e-5) and
not the claimed 10/111320 (≈ 8.982e-5). -/
theorem c5_equator_tolerance_counterexample :
    toleranceForResolution [(0, 0), (1, 0)] 10 = 10 / 111132 ∧
    (10 / 111132 : ℝ) ≠ 10 / 111320 := by
  constructor
  · unfold toleranceForResolution
    norm_num [jsMinFold, jsMaxFold, Real.cos_zero]
  · norm_num

/-- C5 (amended): for a non-empty all-zero-latitude (equatorial) track the
tolerance is min(targetMeters / 111132, 0.01): the centre latitude is 0,
cos 0 = 1, and the smaller of the two conversion factors is
metersPerDegreeLat = 111132 (not 111320), clamped at 0.01 degrees.  For
targetMeters = 10 this gives 10/111132 ≈ 8.998e-5 degrees. -/
theorem c5_equator_tolerance_value (coords : List (ℚ × ℚ)) (targetMeters : ℚ)
    (hne : coords ≠ []) (hlat : ∀ c ∈ coords, c.2 = 0) :
    toleranceForResolution coords targetMeters = min ((targetMeters : ℝ) / 111132) 0.01 := by
  obtain ⟨c, l, rfl⟩ : ∃ c l, coords = c :: l := by
    cases coords with
    | nil => exact absurd rfl hne
    | cons c l => exact ⟨c, l, rfl⟩
  have hc : c.2 = 0 := hlat c (List.mem_cons_self c l)
  have hl : ∀ x ∈ l, x.2 = 0 := fun x hx => hlat x (List.mem_cons_of_mem c hx)
  have hmin : (c :: l).foldl (fun a x => jsMinFold a x.2) none = some 0 := by
    rw [List.foldl_cons]
    have : jsMinFold none c.2 = some 0 := by simp [jsMinFold, hc]
    rw [this]
    exact foldl_jsMinFold_allzero l hl
  have hmax : (c :: l).foldl (fun a x => jsMaxFold a x.2) none = some 0 := by
    rw [List.foldl_cons]
    have : jsMaxFold none c.2 = some 0 := by simp [jsMaxFold, hc]
    rw [this]
    exact foldl_jsMaxFold_allzero l hl
  unfold toleranceForResolution
  rw [if_neg (by simp)]
  rw [hmin, hmax]
  norm_num [Real.cos_zero]

/-- Witness for C5's amended theorem at the two-point equatorial track and
targetMeters = 10. -/
theorem c5_equator_tolerance_value_witness :
    ([((0 : ℚ), (0 : ℚ)), (1, 0)] ≠ ([] : List (ℚ × ℚ))) ∧
    (∀ c ∈ [((0 : ℚ), (0 : ℚ)), (1, 0)], c.2 = 0) ∧
    toleranceForResolution [(0, 0), (1, 0)] 10 = min ((10 : ℝ) / 111132) 0.01 :=
  ⟨by simp, by decide,
    c5_equator_tolerance_value [(0, 0), (1, 0)] 10 (by simp) (by decide)⟩

/-- Boolean membership test and propositional membership agree. -/
lemma contains_eq_true_iff (l : List String) (a : String) : l.contains a = true ↔ a ∈ l := by
  simp [List.contains, List.elem_iff]

/-- Every operation a sync step appends to the trace carries that step's ride
id. -/
lemma syncStep_ops_mem (prev vv : List String) (filt : RideFilter)
    (acc : List MapOp × List String) (r : RideMeta) :
    ∀ op ∈ (syncStep prev vv filt acc r).1, op ∈ acc.1 ∨ op.opId = r.id := by
  intro op hop
  simp only [syncStep, addRideOps, removeRideOps, refreshRideOps] at hop
  split_ifs at hop <;> (try simp at hop) <;>
    first
      | exact Or.inl hop
      | (rcases hop with h | rfl
         · exact Or.inl h
         · exact Or.inr rfl)

/-- A sync step changes the source registry only at that step's ride id. -/
lemma syncStep_sources_mem (prev vv : List String) (filt : RideFilter)
    (acc : List MapOp × List String) (r : RideMeta) (x : String) (hx : x ≠ r.id) :
    x ∈ (syncStep prev vv filt acc r).2 ↔ x ∈ acc.2 := by
  simp only [syncStep, addRideOps, removeRideOps, refreshRideOps]
  split_ifs <;> simp [hx, List.mem_erase_of_ne hx]

/-- The sync loop only appends to the operation trace. -/
lemma foldl_syncStep_ops_prefix (prev vv : List String) (filt : RideFilter) :
    ∀ (l : List RideMeta) (acc : List MapOp × List String),
      ∃ t, (l.foldl (syncStep prev vv filt) acc).1 = acc.1 ++ t := by
  intro l
  induction l with
  | nil => exact fun acc => ⟨[], by simp⟩
  | cons r l ih =>
    intro acc
    rw [List.foldl_cons]
    obtain ⟨t, ht⟩ := ih (syncStep prev vv filt acc r)
    have hstep : ∃ s, (syncStep prev vv filt acc r).1 = acc.1 ++ s := by
      simp only [syncStep, addRideOps, removeRideOps, refreshRideOps]
      split_ifs <;> first
        | exact ⟨_, rfl⟩
        | exact ⟨[], by simp⟩
    obtain ⟨s, hs⟩ := hstep
    exact ⟨s ++ t, by rw [ht, hs, List.append_assoc]⟩

/-- Folding the sync loop over rides none of which carries the target id
leaves both the target's operations and the target's source membership
untouched. -/
lemma foldl_syncStep_avoid (prev vv : List String) (filt : RideFilter) (target : String) :
    ∀ (l : List RideMeta) (acc : List MapOp × List String),
      (∀ r ∈ l, r.id ≠ target) →
      (∀ op ∈ (l.foldl (syncStep prev vv filt) acc).1, op ∈ acc.1 ∨ op.opId ≠ target) ∧
      (target ∈ (l.foldl (syncStep prev vv filt) acc).2 ↔ target ∈ acc.2) := by
  intro l
  induction l with
  | nil => exact fun acc _ => ⟨fun op hop => Or.inl hop, Iff.rfl⟩
  | cons r l ih =>
    intro acc hl
    have hr : r.id ≠ target := hl r (List.mem_cons_self r l)
    have hrest : ∀ x ∈ l, x.id ≠ target := fun x hx => hl x (List.mem_cons_of_mem r hx)
    rw [List.foldl_cons]
    obtain ⟨hops, hsrc⟩ := ih (syncStep prev vv filt acc r) hrest
    constructor
    · intro op hop
      rcases hops op hop with h | h
      · rcases syncStep_ops_mem prev vv filt acc r op h with h' | h'
        · exact Or.inl h'
        · exact Or.inr (h' ▸ hr)
      · exact Or.inr h
    · rw [hsrc]
      exact syncStep_sources_mem prev vv filt acc r target (fun h => hr h.symm)

/-- The sync step for a ride that is already visible, still registered on the
map and should stay shown issues exactly one resolution refresh and leaves
the source registry unchanged. -/
lemma syncStep_target_refresh (prev vv : List String) (filt : RideFilter)
    (acc : List MapOp × List String) (r : RideMeta)
    (hvv : r.id ∈ vv) (hprev : r.id ∈ prev) (hsrc : r.id ∈ acc.2)
    (hmatch : rideMatchesFilter r filt = true) :
    syncStep prev vv filt acc r = (acc.1 ++ [MapOp.refresh r.id], acc.2) := by
  have h1 : vv.contains r.id = true := (contains_eq_true_iff vv r.id).mpr hvv
  have h2 : prev.contains r.id = true := (contains_eq_true_iff prev r.id).mpr hprev
  have h3 : acc.2.contains r.id = true := (contains_eq_true_iff acc.2 r.id).mpr hsrc
  unfold syncStep refreshRideOps
  simp [h1, h2, h3, hmatch, hvv, hprev, hsrc]

/-- C6: during one synchronization pass, a ride that was visible before the
pass (in `state.visible` and registered on the map) and should still be shown
after it receives exactly a resolution-refresh operation: no remove and no
add is ever issued for it, so it never passes through the Hidden state within
the pass. -/
theorem c6_visible_stays_visible_refresh_only
    (rides : List RideMeta) (filt : RideFilter) (vp : BoundingBox)
    (prev sources : List String) (ride : RideMeta)
    (hnd : (rides.map RideMeta.id).Nodup)
    (hmem : ride ∈ rides)
    (hprev : ride.id ∈ prev)
    (hsrc : ride.id ∈ sources)
    (hmatch : rideMatchesFilter ride filt = true) :
    MapOp.refresh ride.id ∈ (syncLayers rides filt vp prev sources).1 ∧
    MapOp.add ride.id ∉ (syncLayers rides filt vp prev sources).1 ∧
    MapOp.remove ride.id ∉ (syncLayers rides filt vp prev sources).1 := by
  obtain ⟨l₁, l₂, rfl⟩ := List.append_of_mem hmem
  have hvv : ride.id ∈ computeVisibleRides (l₁ ++ ride :: l₂) vp := by
    unfold computeVisibleRides
    exact List.mem_map_of_mem RideMeta.id hmem
  -- split the Nodup hypothesis into "no other ride carries this id"
  rw [List.map_append, List.map_cons, List.nodup_append] at hnd
  obtain ⟨-, hnd₂, hdisj⟩ := hnd
  rw [List.nodup_cons] at hnd₂
  have h₁ : ∀ x ∈ l₁, x.id ≠ ride.id := by
    intro x hx he
    exact hdisj (he ▸ List.mem_map_of_mem RideMeta.id hx) (List.mem_cons_self _ _)
  have h₂ : ∀ x ∈ l₂, x.id ≠ ride.id := by
    intro x hx he
    exact hnd₂.1 (he ▸ List.mem_map_of_mem RideMeta.id hx)
  -- run the loop up to the target ride
  have hops : (syncLayers (l₁ ++ ride :: l₂) filt vp prev sources).1 =
      ((l₁ ++ ride :: l₂).foldl
        (syncStep prev (computeVisibleRides (l₁ ++ ride :: l₂) vp) filt) ([], sources)).1 :=
    rfl
  set vv := computeVisibleRides (l₁ ++ ride :: l₂) vp with hvvdef
  set F := syncStep prev vv filt with hF
  have hsplit : (l₁ ++ ride :: l₂).foldl F ([], sources) =
      l₂.foldl F (F (l₁.foldl F ([], sources)) ride) := by
    rw [List.foldl_append, List.foldl_cons]
  obtain ⟨havoid₁, hsrc₁⟩ := foldl_syncStep_avoid prev vv filt ride.id l₁ ([], sources) h₁
  set acc₁ := l₁.foldl F ([], sources) with hacc₁
  have hsrcmem : ride.id ∈ acc₁.2 := hsrc₁.mpr hsrc
  have htarget : F acc₁ ride = (acc₁.1 ++ [MapOp.refresh ride.id], acc₁.2) :=
    syncStep_target_refresh prev vv filt acc₁ ride hvv hprev hsrcmem hmatch
  obtain ⟨havoid₂, -⟩ :=
    foldl_syncStep_avoid prev vv filt ride.id l₂ (F acc₁ ride) h₂
  obtain ⟨t, hext⟩ := foldl_syncStep_ops_prefix prev vv filt l₂ (F acc₁ ride)
  have hrefresh : MapOp.refresh ride.id ∈ (l₂.foldl F (F acc₁ ride)).1 := by
    rw [hext, htarget]
    simp
  have hnone : ∀ op ∈ (l₂.foldl F (F acc₁ ride)).1, op.opId = ride.id →
      op = MapOp.refresh ride.id := by
    intro op hop he
    rcases havoid₂ op hop with h | h
    · rw [htarget] at h
      rcases List.mem_append.mp h with h' | h'
      · rcases havoid₁ op h' with h'' | h''
        · simp at h''
        · exact absurd he h''
      · simpa using h'
    · exact absurd he h
  refine ⟨?_, ?_, ?_⟩
  · rw [hops, hsplit]
    exact hrefresh
  · rw [hops, hsplit]
    intro hadd
    have := hnone (MapOp.add ride.id) hadd rfl
    simp [MapOp.opId] at this
  · rw [hops, hsplit]
    intro hrem
    have := hnone (MapOp.remove ride.id) hrem rfl
    simp [MapOp.opId] at this

/-- Witness for C6: in the three-ride scenario with rides A and C already
visible and registered, the pass issues a refresh for A and neither removes
nor re-adds it. -/
theorem c6_visible_stays_visible_refresh_only_witness :
    MapOp.refresh "A" ∈
      (syncLayers [rideA, rideB, rideC] trainingFilter viewport0 ["A", "C"] ["A", "C"]).1 ∧
    MapOp.add "A" ∉
      (syncLayers [rideA, rideB, rideC] trainingFilter viewport0 ["A", "C"] ["A", "C"]).1 ∧
    MapOp.remove "A" ∉
      (syncLayers [rideA, rideB, rideC] trainingFilter viewport0 ["A", "C"] ["A", "C"]).1 := by
  have h := c6_visible_stays_visible_refresh_only [rideA, rideB, rideC] trainingFilter
    viewport0 ["A", "C"] ["A", "C"] rideA (by decide) (by decide) (by decide) (by decide)
    (by decide)
  simpa [rideA] using h

/-- Over an array whose elements are all objects, the `[pt.x, pt.y]`
extraction map does not throw, and the extracted pairs are exactly what the
sanitizer's shape detection sees of the raw array. -/
lemma mapM_deref_all_objects :
    ∀ pts : List TrackPoint, (∀ p ∈ pts, p ≠ none) →
      ∃ xys : List (Option ℚ × Option ℚ),
        List.mapM' derefOrThrow pts = Except.ok xys ∧
        xys.map (fun p => RawPt.pair p.1 p.2) = pts.map derefPoint := by
  intro pts
  induction pts with
  | nil => exact fun _ => ⟨[], rfl, rfl⟩
  | cons p pts ih =>
    intro h
    obtain ⟨xy, rfl⟩ : ∃ xy, p = some xy := by
      cases p with
      | none => exact absurd rfl (h none (List.mem_cons_self _ _))
      | some xy => exact ⟨xy, rfl⟩
    obtain ⟨xys, hm, hmap⟩ := ih (fun q hq => h q (List.mem_cons_of_mem _ hq))
    refine ⟨xy :: xys, ?_, ?_⟩
    · rw [List.mapM'_cons, hm]
      rfl
    · simp [hmap, derefPoint, derefOrThrow]

/-- C7 counterexample: the claim covers every track with zero usable points
after cleaning and says the tier generator records placeholders and never
raises.  For a present, non-empty point list whose single element is null —
zero usable points after cleaning, since the sanitizer's shape detection
skips null elements — `extractCoordinates` dereferences `pt.x` on null before
any cleaning runs, so `generateResolutionFiles` raises a TypeError instead of
returning the placeholder triple. -/
theorem c7_null_point_crash_counterexample :
    sanitizedOfTrip (some [(none : TrackPoint)]) = [] ∧
    generateResolutionFiles (fun _ _ => []) "ride1" (some [(none : TrackPoint)]) =
      Except.error () ∧
    (Except.error () : Except Unit (TierPaths × List (String × List (ℚ × ℚ)))) ≠
      Except.ok (⟨"", "", ""⟩, []) := by
  refine ⟨by decide, rfl, by simp⟩

/-- C7 (amended): when the raw point list is absent, and when the raw point
elements are all objects and the sanitized coordinate list is empty, the tier
generator returns empty-string references for all three tiers, writes no
geometry artifact and raises no error — both guards return before any write.
(A null or undefined point element instead makes the extraction's `pt.x`
access throw before cleaning; see the counterexample.) -/
theorem c7_empty_geometry_placeholders
    (simplifyAlg : List (ℚ × ℚ) → ℝ → List (ℚ × ℚ)) (rideId : String)
    (track_points : Option (List TrackPoint))
    (hobj : ∀ p ∈ track_points.getD [], p ≠ (none : TrackPoint))
    (h : sanitizedOfTrip track_points = []) :
    generateResolutionFiles simplifyAlg rideId track_points =
      Except.ok (⟨"", "", ""⟩, []) := by
  cases htp : track_points with
  | none => rfl
  | some pts =>
    rw [htp] at hobj h
    by_cases hlen : pts.length = 0
    · simp [generateResolutionFiles, extractCoordinates, hlen, Except.bind]
    · obtain ⟨xys, hm, hmap⟩ := mapM_deref_all_objects pts (by simpa using hobj)
      have hclean : cleanCoordinates (xys.map (fun p => RawPt.pair p.1 p.2)) = [] := by
        rw [hmap]
        simpa [sanitizedOfTrip] using h
      have hext : extractCoordinates (some pts) = Except.ok (some xys) := by
        simp only [extractCoordinates]
        rw [if_neg hlen, hm]
        rfl
      unfold generateResolutionFiles
      rw [hext]
      simp [Except.bind, hclean]

/-- Witness for C7's amended theorem: an all-object track whose single point
has a NaN longitude, hence an empty sanitized list. -/
theorem c7_empty_geometry_placeholders_witness :
    (∀ p ∈ (some [(some (none, some 1) : TrackPoint)] :
        Option (List TrackPoint)).getD [], p ≠ (none : TrackPoint)) ∧
    sanitizedOfTrip (some [(some (none, some 1) : TrackPoint)]) = [] ∧
    generateResolutionFiles (fun _ _ => []) "ride1"
        (some [(some (none, some 1) : TrackPoint)]) = Except.ok (⟨"", "", ""⟩, []) :=
  ⟨by decide, by decide,
    c7_empty_geometry_placeholders (fun _ _ => []) "ride1"
      (some [(some (none, some 1) : TrackPoint)]) (by decide) (by decide)⟩

/-- C8 counterexample: the claim says the fallback scan never crashes for any
shape of point element and skips non-finite or missing coordinate values.
Both parts fail: a null point element makes the property access throw
(`tripNull`), and an Infinity coordinate is not skipped — it propagates into
the resulting bbox (`tripInf` scans to maxLng = Infinity, where the claimed
skip-semantics would give the bbox of the one finite point). -/
theorem c8_bbox_fallback_counterexample :
    computeBboxFromTrip tripNull = Except.error () ∧
    computeBboxFromTrip tripInf =
      Except.ok (BboxResult.scanned (JVal.num 0) (JVal.num 0) JVal.inf (JVal.num 1)) ∧
    computeBboxFromTripSpec tripInf =
      BboxResult.scanned (JVal.num 0) (JVal.num 0) (JVal.num 0) (JVal.num 0) ∧
    BboxResult.scanned (JVal.num 0) (JVal.num 0) JVal.inf (JVal.num 1) ≠
      BboxResult.scanned (JVal.num 0) (JVal.num 0) (JVal.num 0) (JVal.num 0) := by
  refine ⟨rfl, rfl, by decide, by decide⟩

/-- NaN is less than nothing. -/
lemma jnumLt_nan_left (b : JNum) : jnumLt JNum.nan b = false := by
  cases b <;> rfl

/-- Nothing is less than NaN. -/
lemma jnumLt_nan_right (a : JNum) : jnumLt a JNum.nan = false := by
  cases a <;> rfl

/-- A coordinate pair that coerces to NaN on both axes leaves the running
min/max untouched. -/
lemma scanStep_nan_skip (acc : ScanAcc) (x y : JVal)
    (hx : jsToNumber x = JNum.nan) (hy : jsToNumber y = JNum.nan) :
    scanStep acc (x, y) = acc := by
  simp [scanStep, jsLt, jsGt, hx, hy, jnumLt_nan_left, jnumLt_nan_right]

/-- The branchless JS minimum update agrees with `min`. -/
lemma ite_lt_eq_min (x a : ℚ) : (if x < a then x else a) = min x a := by
  rcases le_or_lt a x with h | h
  · rw [if_neg (not_lt.mpr h), min_eq_right h]
  · rw [if_pos h, min_eq_left h.le]

/-- The branchless JS maximum update agrees with `max`. -/
lemma ite_lt_eq_max (x c : ℚ) : (if c < x then x else c) = max x c := by
  rcases le_or_lt x c with h | h
  · rw [if_neg (not_lt.mpr h), max_eq_right h]
  · rw [if_pos h, max_eq_left h.le]

/-- On all-finite accumulator and point, one scan step is the componentwise
min/max. -/
lemma scanStep_num (a b c d x y : ℚ) :
    scanStep ⟨JVal.num a, JVal.num b, JVal.num c, JVal.num d⟩ (JVal.num x, JVal.num y) =
      ⟨JVal.num (min x a), JVal.num (min y b), JVal.num (max x c), JVal.num (max y d)⟩ := by
  simp only [scanStep, jsLt, jsGt, jsToNumber, jnumLt, decide_eq_true_eq]
  rw [ScanAcc.mk.injEq]
  refine ⟨?_, ?_, ?_, ?_⟩ <;> rw [← apply_ite JVal.num]
  · rw [ite_lt_eq_min]
  · rw [ite_lt_eq_min]
  · rw [ite_lt_eq_max]
  · rw [ite_lt_eq_max]

/-- The first scan step from the Infinity-initialised accumulator loads the
point's coordinates into all four components. -/
lemma scanStep_init (x y : ℚ) :
    scanStep ⟨JVal.inf, JVal.inf, JVal.ninf, JVal.ninf⟩ (JVal.num x, JVal.num y) =
      ⟨JVal.num x, JVal.num y, JVal.num x, JVal.num y⟩ := by
  simp [scanStep, jsLt, jsGt, jsToNumber, jnumLt]

/-- Folding the scan over finite points from an all-finite accumulator
computes the running min/max on each component. -/
lemma foldl_scanStep_num (cs : List (ℚ × ℚ)) :
    ∀ a b c d : ℚ,
      cs.foldl (fun acc p => scanStep acc (JVal.num p.1, JVal.num p.2))
        ⟨JVal.num a, JVal.num b, JVal.num c, JVal.num d⟩ =
      ⟨JVal.num (cs.foldl (fun m p => min p.1 m) a),
       JVal.num (cs.foldl (fun m p => min p.2 m) b),
       JVal.num (cs.foldl (fun m p => max p.1 m) c),
       JVal.num (cs.foldl (fun m p => max p.2 m) d)⟩ := by
  induction cs with
  | nil => intro a b c d; rfl
  | cons p cs ih =>
    intro a b c d
    rw [List.foldl_cons, scanStep_num]
    rw [List.foldl_cons, List.foldl_cons, List.foldl_cons, List.foldl_cons]
    exact ih (min p.1 a) (min p.2 b) (max p.1 c) (max p.2 d)

/-- The error-or-scan fold never throws over object-only points and agrees
with the plain fold. -/
lemma foldlM_scanStep_map (cs : List (ℚ × ℚ)) :
    ∀ acc : ScanAcc,
      (cs.map (fun p => (some (JVal.num p.1, JVal.num p.2) : JPoint))).foldlM
          (fun acc (p : JPoint) =>
            match p with
            | none => Except.error ()
            | some xy => Except.ok (scanStep acc xy))
          acc =
        Except.ok (cs.foldl (fun acc p => scanStep acc (JVal.num p.1, JVal.num p.2)) acc) := by
  induction cs with
  | nil => intro acc; rfl
  | cons p cs ih =>
    intro acc
    simp only [List.map_cons, List.foldlM_cons, List.foldl_cons]
    exact ih (scanStep acc (JVal.num p.1, JVal.num p.2))

/-- C8 (amended): the fallback scan tolerates coordinate values that coerce
to NaN (missing / undefined / NaN): they never move the running min/max, so a
point missing both fields is skipped.  It does not, however, survive a
null/undefined point element (the property access throws), and it does not
skip infinite values.  When every point element is an object with two finite
coordinates, the scan does not crash and returns exactly the spec's min/max
bbox over those points. -/
theorem c8_bbox_fallback_behavior :
    (∀ (acc : ScanAcc) (x y : JVal),
      jsToNumber x = JNum.nan → jsToNumber y = JNum.nan → scanStep acc (x, y) = acc) ∧
    (∀ (trip : Trip) (cs : List (ℚ × ℚ)),
      (isNumberType trip.sw_lng && isNumberType trip.sw_lat &&
        isNumberType trip.ne_lng && isNumberType trip.ne_lat) = false →
      trip.track_points = some (cs.map (fun p => some (JVal.num p.1, JVal.num p.2))) →
      cs ≠ [] →
      computeBboxFromTrip trip = Except.ok (computeBboxFromTripSpec trip)) := by
  refine ⟨scanStep_nan_skip, ?_⟩
  intro trip cs hcorners htp hne
  obtain ⟨c, cs', rfl⟩ : ∃ c cs', cs = c :: cs' := by
    cases cs with
    | nil => exact absurd rfl hne
    | cons c cs' => exact ⟨c, cs', rfl⟩
  simp only [computeBboxFromTrip, computeBboxFromTripSpec, hcorners, htp,
    Bool.false_eq_true, if_false, List.length_map, List.length_cons, Nat.zero_lt_succ,
    gt_iff_lt, if_true]
  have hfin : ((c :: cs').map (fun p => (some (JVal.num p.1, JVal.num p.2) : JPoint))).filterMap
      (fun (p : JPoint) =>
        match p with
        | some (JVal.num a, JVal.num b) => some (a, b)
        | _ => none) = c :: cs' := by
    rw [List.filterMap_map]
    have hcomp : ((fun (p : JPoint) =>
        match p with
        | some (JVal.num a, JVal.num b) => some (a, b)
        | _ => none) ∘ fun p : ℚ × ℚ => (some (JVal.num p.1, JVal.num p.2) : JPoint)) =
          some := by
      funext p
      rfl
    rw [hcomp, List.filterMap_some]
  rw [hfin]
  rw [foldlM_scanStep_map]
  rw [List.foldl_cons, scanStep_init, foldl_scanStep_num]
  rfl

/-- Witness for C8's amended theorem: a NaN-coordinate pair is skipped, and a
two-finite-point trip without corner fields scans to the spec's bbox. -/
theorem c8_bbox_fallback_behavior_witness :
    jsToNumber JVal.undef = JNum.nan ∧
    scanStep ⟨JVal.num 0, JVal.num 0, JVal.num 0, JVal.num 0⟩ (JVal.undef, JVal.nan) =
      ⟨JVal.num 0, JVal.num 0, JVal.num 0, JVal.num 0⟩ ∧
    computeBboxFromTrip
        ⟨JVal.undef, JVal.undef, JVal.undef, JVal.undef,
          some [some (JVal.num 0, JVal.num 0), some (JVal.num 2, JVal.num 1)]⟩ =
      Except.ok (computeBboxFromTripSpec
        ⟨JVal.undef, JVal.undef, JVal.undef, JVal.undef,
          some [some (JVal.num 0, JVal.num 0), some (JVal.num 2, JVal.num 1)]⟩) :=
  ⟨rfl,
    c8_bbox_fallback_behavior.1 ⟨JVal.num 0, JVal.num 0, JVal.num 0, JVal.num 0⟩
      JVal.undef JVal.nan rfl rfl,
    c8_bbox_fallback_behavior.2
      ⟨JVal.undef, JVal.undef, JVal.undef, JVal.undef,
        some [some (JVal.num 0, JVal.num 0), some (JVal.num 2, JVal.num 1)]⟩
      [(0, 0), (2, 1)] (by decide) rfl (by decide)⟩

/-- The batch fold appends the successful ids and counts one warning per
failed item. -/
lemma foldl_processFileStep (files : List FileItem) :
    ∀ acc : List String × Nat,
      files.foldl processFileStep acc =
        (acc.1 ++ files.filterMap fileUpsertId,
         acc.2 + (files.filter (fun f => (fileUpsertId f).isNone)).length) := by
  induction files with
  | nil => intro acc; simp
  | cons f files ih =>
    intro acc
    rw [List.foldl_cons, ih]
    have hstep : processFileStep acc f =
        (match fileUpsertId f with
          | some id => (acc.1 ++ [id], acc.2)
          | none => (acc.1, acc.2 + 1)) := by
      cases f with
      | readError => rfl
      | parsed trip =>
        cases trip with
        | none => rfl
        | some t =>
          simp only [processFileStep, fileUpsertId]
          cases processTrip t <;> rfl
    rw [hstep]
    cases hf : fileUpsertId f with
    | none =>
      simp [List.filterMap_cons, List.filter_cons, hf, Prod.ext_iff]
      omega
    | some id =>
      simp [List.filterMap_cons, List.filter_cons, hf, Prod.ext_iff]

/-- C9: batch ingestion isolates per-item failures.  The loop upserts exactly
the successfully processed files' ids, in input order (so every file after a
failure is still processed), surfaces one per-item warning per failed item,
and the batch always completes: the last-run marker is written and the store
closed.  Removing one failing file from anywhere in the batch changes nothing
but that one warning. -/
theorem c9_batch_isolation :
    (∀ files : List FileItem,
      runBatch files =
        ⟨files.filterMap fileUpsertId,
         (files.filter (fun f => (fileUpsertId f).isNone)).length, true, true⟩) ∧
    (∀ (l₁ l₂ : List FileItem) (f : FileItem), fileUpsertId f = none →
      (runBatch (l₁ ++ f :: l₂)).upserted = (runBatch (l₁ ++ l₂)).upserted ∧
      (runBatch (l₁ ++ f :: l₂)).warned = (runBatch (l₁ ++ l₂)).warned + 1) := by
  have hrun : ∀ files : List FileItem,
      runBatch files =
        ⟨files.filterMap fileUpsertId,
         (files.filter (fun f => (fileUpsertId f).isNone)).length, true, true⟩ := by
    intro files
    unfold runBatch
    rw [foldl_processFileStep files ([], 0)]
    simp
  refine ⟨hrun, ?_⟩
  intro l₁ l₂ f hf
  rw [hrun, hrun]
  constructor
  · simp [List.filterMap_append, List.filterMap_cons, hf]
  · simp [List.filter_append, List.filter_cons, hf]
    omega

/-- Witness for C9: an unreadable file between two good ones adds exactly one
warning and changes no upsert. -/
theorem c9_batch_isolation_witness :
    fileUpsertId FileItem.readError = none ∧
    (runBatch
        ([FileItem.parsed (some tripFileOk)] ++
          FileItem.readError :: [FileItem.parsed (some tripFileOk2)])).upserted =
      (runBatch
        ([FileItem.parsed (some tripFileOk)] ++
          [FileItem.parsed (some tripFileOk2)])).upserted ∧
    (runBatch
        ([FileItem.parsed (some tripFileOk)] ++
          FileItem.readError :: [FileItem.parsed (some tripFileOk2)])).warned =
      (runBatch
        ([FileItem.parsed (some tripFileOk)] ++
          [FileItem.parsed (some tripFileOk2)])).warned + 1 :=
  ⟨rfl,
    (c9_batch_isolation.2 [FileItem.parsed (some tripFileOk)]
      [FileItem.parsed (some tripFileOk2)] FileItem.readError rfl).1,
    (c9_batch_isolation.2 [FileItem.parsed (some tripFileOk)]
      [FileItem.parsed (some tripFileOk2)] FileItem.readError rfl).2⟩

/-- The descending departure order is transitive. -/
lemma departedDescLe_trans (a b c : DbRow)
    (hab : departedDescLe a b) (hbc : departedDescLe b c) : departedDescLe a c := by
  simp only [departedDescLe, decide_eq_true_eq] at hab hbc ⊢
  exact le_trans hbc hab

/-- The descending departure order is total. -/
lemma departedDescLe_total (a b : DbRow) :
    departedDescLe a b || departedDescLe b a := by
  simp only [departedDescLe]
  rcases le_total a.departed_at b.departed_at with h | h <;> simp [h]

/-- C10: a successful `GET /api/rides` response holds at most 455 rides —
exactly min(455, number of matching rows) — sorted by `departed_at`
descending, and every returned ride is the reshaping of a stored row that
satisfies the query's filters; matches beyond the first 455 are silently
dropped. -/
theorem c10_api_rides_limit (rows : List DbRow) (q : RidesQuery) (out : List ApiRide)
    (h : apiRides rows q = Except.ok out) :
    out.length ≤ 455 ∧
    out.length = min 455 (rows.filter (rowMatchesWhere q)).length ∧
    List.Sorted (fun a b : ApiRide => b.departed_at ≤ a.departed_at) out ∧
    (∀ a ∈ out, ∃ r ∈ rows, rowMatchesWhere q r = true ∧ a = toApiRide r) := by
  unfold apiRides at h
  cases hb : q.bbox with
  | some v => rw [hb] at h; exact absurd h (by simp)
  | none =>
    rw [hb] at h
    have hout : out =
        (((rows.filter (rowMatchesWhere q)).mergeSort departedDescLe).take 455).map
          toApiRide := by
      have := h
      simp only [Except.ok.injEq] at this
      exact this.symm
    subst hout
    refine ⟨?_, ?_, ?_, ?_⟩
    · simp [Nat.min_le_left]
    · simp
    · have hsorted : ((rows.filter (rowMatchesWhere q)).mergeSort departedDescLe).Pairwise
          (fun a b => departedDescLe a b) := by
        exact List.sorted_mergeSort
          (fun a b c hab hbc => departedDescLe_trans a b c hab hbc)
          (fun a b => departedDescLe_total a b)
          (rows.filter (rowMatchesWhere q))
      have htake := hsorted.sublist
        (List.take_sublist 455 ((rows.filter (rowMatchesWhere q)).mergeSort departedDescLe))
      refine List.Pairwise.map toApiRide ?_ htake
      intro a b hab
      simpa [departedDescLe, toApiRide] using hab
    · intro a ha
      obtain ⟨r, hr, rfl⟩ := List.mem_map.mp ha
      have hr' : r ∈ (rows.filter (rowMatchesWhere q)).mergeSort departedDescLe :=
        (List.take_sublist _ _).subset hr
      rw [List.mem_mergeSort] at hr'
      rw [List.mem_filter] at hr'
      exact ⟨r, hr'.1, hr'.2, rfl⟩

/-- Witness for C10 at one stored row and the empty query. -/
theorem c10_api_rides_limit_witness :
    apiRides [dbRow1] emptyRidesQuery = Except.ok [toApiRide dbRow1] ∧
    ([toApiRide dbRow1].length ≤ 455 ∧
      [toApiRide dbRow1].length = min 455 ([dbRow1].filter (rowMatchesWhere emptyRidesQuery)).length ∧
      List.Sorted (fun a b : ApiRide => b.departed_at ≤ a.departed_at) [toApiRide dbRow1] ∧
      (∀ a ∈ [toApiRide dbRow1], ∃ r ∈ [dbRow1],
        rowMatchesWhere emptyRidesQuery r = true ∧ a = toApiRide r)) := by
  have h1 : apiRides [dbRow1] emptyRidesQuery = Except.ok [toApiRide dbRow1] := by
    unfold apiRides
    simp [emptyRidesQuery, rowMatchesWhere, List.filter]
  exact ⟨h1, c10_api_rides_limit [dbRow1] emptyRidesQuery [toApiRide dbRow1] h1⟩

end GpxVisualize
